import Mathlib

set_option autoImplicit false

/-!
Shallow embedding of the user-registration backend
(Express + Redis + Kafka + PostgreSQL pipeline).

The embedding follows the source files:
  * `validateUserData`, `submitUserData`, `saveUserToDatabase`,
    `getAllUsers`, `getUserByEmail` from the user service module;
  * `sendMessage`, `startConsumer` from the Kafka configuration module;
  * the POST / GET route handlers from `userRoutes.js`;
  * the aggregate health handler from `healthRoutes.js`;
  * the `users` table schema from the database configuration module.

External stores are modelled as explicit state: Redis as an association
list of keyed entries with TTLs, PostgreSQL as a list of rows plus a
serial counter, Kafka as the list of messages appended to the topic.
Dependency availability is a set of boolean flags; an unavailable
dependency makes the corresponding client call fail, which the embedding
surfaces as an `Except` error exactly where the source would throw.
-/

namespace UserReg

/-- Raw submission payload as received by the API: every field may be
absent, mirroring an arbitrary JSON body before validation. -/
structure UserInput where
  firstName : Option String
  lastName : Option String
  email : Option String
  gender : Option String
  sex : Option String
  occupation : Option String
deriving Repr, DecidableEq

/-- Validated registration record, the output of `validateUserData`:
every field present. -/
structure UserData where
  firstName : String
  lastName : String
  email : String
  gender : String
  sex : String
  occupation : String
deriving Repr, DecidableEq

/-- Allowed values of the `gender` field, from the Joi schema
`Joi.string().valid('male', 'female', 'non-binary', 'prefer-not-to-say')`. -/
def genderValues : List String :=
  ["male", "female", "non-binary", "prefer-not-to-say"]

/-- Allowed values of the `sex` field, from the Joi schema
`Joi.string().valid('male', 'female', 'intersex')`. -/
def sexValues : List String :=
  ["male", "female", "intersex"]

/-- Name rule from the Joi schema: `Joi.string().min(2).max(100)`. -/
def nameOk (s : String) : Bool :=
  decide (2 ≤ s.length) && decide (s.length ≤ 100)

/-- Occupation rule from the Joi schema: `Joi.string().min(2).max(255)`. -/
def occupationOk (s : String) : Bool :=
  decide (2 ≤ s.length) && decide (s.length ≤ 255)

/-- Splitting a character list on a separator character; auxiliary to the
email syntax check. -/
def splitOnChar (c : Char) : List Char → List (List Char)
  | [] => [[]]
  | x :: xs =>
    let rest := splitOnChar c xs
    if x = c then [] :: rest
    else
      match rest with
      | [] => [[x]]
      | h :: t => (x :: h) :: t

/-- Modelled from the spec: the RFC-5322-like email syntax check performed
by `Joi.string().email()`. The Joi library implementation is not part of
this repository; the model keeps its essential shape: a nonempty local
part, a single `@`, and a domain of at least two nonempty dot-separated
labels whose last (top-level) label has length at least 2. -/
def emailOk (s : String) : Bool :=
  match splitOnChar ('@') s.data with
  | [lp, dp] =>
      (!lp.isEmpty) &&
      (let labels := splitOnChar ('.') dp
       decide (2 ≤ labels.length) &&
       labels.all (fun l => !l.isEmpty) &&
       decide (2 ≤ (labels.getLastD ([])).length))
  | _ => false

/-- Structured form of `error.details[0]` of a Joi validation failure:
the offending field and a human-readable message. The source throws
`new Error('Validation error: ' + error.details[0].message)`. -/
structure ValidationError where
  field : String
  message : String
deriving Repr, DecidableEq

/-- Embedding of `validateUserData`: `userSchema.validate(userData)` with
Joi's default abort-early behaviour, checking the schema keys in
declaration order (`firstName`, `lastName`, `email`, `gender`, `sex`,
`occupation`); a missing required key or a rule violation produces the
first offending field's error, otherwise the validated value is
returned. -/
def validateUserData (u : UserInput) : Except ValidationError UserData :=
  match u.firstName with
  | none => .error ⟨"firstName", "firstName is required"⟩
  | some fn =>
    if !nameOk fn then
      .error ⟨"firstName", "firstName length must be between 2 and 100"⟩
    else
      match u.lastName with
      | none => .error ⟨"lastName", "lastName is required"⟩
      | some ln =>
        if !nameOk ln then
          .error ⟨"lastName", "lastName length must be between 2 and 100"⟩
        else
          match u.email with
          | none => .error ⟨"email", "email is required"⟩
          | some em =>
            if !emailOk em then
              .error ⟨"email", "email must be a valid email"⟩
            else
              match u.gender with
              | none => .error ⟨"gender", "gender is required"⟩
              | some g =>
                if !genderValues.contains g then
                  .error ⟨"gender", "gender must be one of the allowed values"⟩
                else
                  match u.sex with
                  | none => .error ⟨"sex", "sex is required"⟩
                  | some sx =>
                    if !sexValues.contains sx then
                      .error ⟨"sex", "sex must be one of the allowed values"⟩
                    else
                      match u.occupation with
                      | none => .error ⟨"occupation", "occupation is required"⟩
                      | some oc =>
                        if !occupationOk oc then
                          .error ⟨"occupation", "occupation length must be between 2 and 255"⟩
                        else
                          .ok ⟨fn, ln, em, g, sx, oc⟩

/-- Row of the `users` table, from `createUsersTable`: serial `id`,
the six record fields, and `created_at` / `updated_at` timestamps
(timestamps modelled as naturals). -/
structure Row where
  id : Nat
  first_name : String
  last_name : String
  email : String
  gender : String
  sex : String
  occupation : String
  created_at : Nat
  updated_at : Nat
deriving Repr, DecidableEq

/-- PostgreSQL `users` table state: the rows plus the serial counter
backing the `id SERIAL PRIMARY KEY` column. -/
structure DB where
  rows : List Row
  nextId : Nat
deriving Repr, DecidableEq

/-- Values stored in Redis by this service: a pending submission
(under `user:pending:<email>`), a consumer-written completion snapshot
`{ savedAt, ...row }` (under `user:completed:<email>`), or a read-path
cache fill holding just the row (same key space). -/
inductive RedisValue where
  | pendingUser (d : UserData)
  | completedSaved (savedAt : Nat) (r : Row)
  | completedRow (r : Row)
deriving Repr, DecidableEq

/-- One Redis entry: key, value and the TTL (seconds) it was set with. -/
structure RedisEntry where
  key : String
  value : RedisValue
  ttl : Nat
deriving Repr, DecidableEq

/-- Redis store state as an association list keyed by string. -/
abbrev RedisStore := List RedisEntry

/-- Embedding of `redisClient.setEx(key, ttl, value)`: store the value
under the key with the given TTL, overwriting any existing entry. -/
def redisSetEx (st : RedisStore) (k : String) (ttl : Nat) (v : RedisValue) : RedisStore :=
  ⟨k, v, ttl⟩ :: st.filter (fun e => e.key ≠ k)

/-- Embedding of `redisClient.get(key)`: the stored value, or `none`. -/
def redisGet (st : RedisStore) (k : String) : Option RedisValue :=
  (st.find? (fun e => e.key = k)).map (fun e => e.value)

/-- Embedding of `redisClient.del(key)`: remove the entry if present. -/
def redisDel (st : RedisStore) (k : String) : RedisStore :=
  st.filter (fun e => e.key ≠ k)

/-- Kafka message as built by `sendMessage`: the producer sends
`{ value: JSON.stringify(message), timestamp: Date.now().toString() }` —
note that no `key` field is set, so the optional partitioning key is
absent. The payload is kept structured rather than serialized. -/
structure KafkaMessage where
  topic : String
  key : Option String
  value : UserData
  timestamp : Nat
deriving Repr, DecidableEq

/-- Embedding of `sendMessage(topic, message)` on the topic log: the
producer appends one message carrying the payload and a producer-assigned
timestamp, with no partitioning key. -/
def sendMessage (log : List KafkaMessage) (topic : String) (message : UserData)
    (now : Nat) : List KafkaMessage :=
  log ++ [⟨topic, none, message, now⟩]

/-- Availability of the three external dependencies; a false flag makes
the corresponding client call fail (throw) in the embedding. -/
structure Env where
  redisUp : Bool
  dbUp : Bool
  kafkaUp : Bool
deriving Repr, DecidableEq

/-- Combined external-store state visible to the service functions. -/
structure AppState where
  redis : RedisStore
  db : DB
  kafkaLog : List KafkaMessage
deriving Repr, DecidableEq

/-- Errors thrown on the submission path: a Joi validation error, a Redis
client error from `setEx`, or a Kafka producer error from `sendMessage`. -/
inductive SubmitError where
  | validation (e : ValidationError)
  | redisUnavailable
  | kafkaUnavailable
deriving Repr, DecidableEq

/-- Success value returned by `submitUserData`. -/
structure SubmitResult where
  success : Bool
  message : String
  email : String
deriving Repr, DecidableEq

/-- Embedding of `submitUserData(userData)`: validate, store the record
under `user:pending:<email>` with a 3600-second TTL, then publish to the
`user-registration` topic. An error at any step rethrows to the caller;
state changes made before the failing step persist (the Redis write is
not rolled back when the publish fails). -/
def submitUserData (env : Env) (st : AppState) (u : UserInput) (now : Nat) :
    AppState × Except SubmitError SubmitResult :=
  match validateUserData u with
  | .error e => (st, .error (.validation e))
  | .ok d =>
    if !env.redisUp then
      (st, .error .redisUnavailable)
    else
      let st1 : AppState :=
        { st with redis := redisSetEx st.redis ("user:pending:" ++ d.email) 3600
                    (.pendingUser d) }
      if !env.kafkaUp then
        (st1, .error .kafkaUnavailable)
      else
        let st2 : AppState :=
          { st1 with kafkaLog := sendMessage st1.kafkaLog ("user-registration") d now }
        (st2, .ok ⟨true, "User registration submitted successfully", d.email⟩)

/-- Errors thrown inside `saveUserToDatabase`: the upsert query failing,
or the post-commit Redis bookkeeping failing. -/
inductive SaveError where
  | dbUnavailable
  | redisUnavailable
deriving Repr, DecidableEq

/-- Embedding of the SQL statement in `saveUserToDatabase`:
`INSERT INTO users (...) VALUES (...) ON CONFLICT (email) DO UPDATE SET
first_name = EXCLUDED.first_name, ..., updated_at = CURRENT_TIMESTAMP
RETURNING *`. On conflict the existing row keeps its `id`, `email` and
`created_at` and takes the new attribute values with `updated_at = now`;
otherwise a fresh row is appended with a serial id and both timestamps
set to `now`. Returns the new table and the returned row. -/
def dbUpsert (db : DB) (u : UserData) (now : Nat) : DB × Row :=
  match db.rows.find? (fun r => r.email = u.email) with
  | some r =>
    let r' : Row :=
      { r with first_name := u.firstName, last_name := u.lastName,
               gender := u.gender, sex := u.sex, occupation := u.occupation,
               updated_at := now }
    ({ db with rows := db.rows.map (fun q => if q.email = u.email then r' else q) }, r')
  | none =>
    let r : Row :=
      { id := db.nextId, first_name := u.firstName, last_name := u.lastName,
        email := u.email, gender := u.gender, sex := u.sex,
        occupation := u.occupation, created_at := now, updated_at := now }
    ({ rows := db.rows ++ [r], nextId := db.nextId + 1 }, r)

/-- Embedding of `saveUserToDatabase(userData)` (called by the Kafka
consumer): run the upsert, then write the completion snapshot
`{ savedAt, ...row }` under `user:completed:<email>` with an
86400-second TTL, then delete `user:pending:<email>`. A Redis failure
after the database commit leaves the row committed but the caches
untouched (the side effects are not transactional). -/
def saveUserToDatabase (env : Env) (st : AppState) (d : UserData) (now : Nat) :
    AppState × Except SaveError Row :=
  if !env.dbUp then
    (st, .error .dbUnavailable)
  else
    let res := dbUpsert st.db d now
    let st1 : AppState := { st with db := res.1 }
    if !env.redisUp then
      (st1, .error .redisUnavailable)
    else
      let st2 : AppState :=
        { st1 with redis := redisSetEx st1.redis ("user:completed:" ++ d.email) 86400
                     (.completedSaved now res.2) }
      let st3 : AppState :=
        { st2 with redis := redisDel st2.redis ("user:pending:" ++ d.email) }
      (st3, .ok res.2)

/-- Embedding of the query in `getAllUsers(limit, offset)`:
`SELECT ... FROM users ORDER BY created_at DESC LIMIT $1 OFFSET $2`.
The rows are sorted most-recent-first, then `offset` rows are skipped and
at most `limit` rows returned. -/
def getAllUsers (db : DB) (limit offset : Nat) : List Row :=
  ((db.rows.insertionSort (fun a b => b.created_at ≤ a.created_at)).drop offset).take limit

/-- Embedding of `getUserByEmail(email)` (cache-aside read path): check
`user:completed:<email>` in Redis first and return the cached value on a
hit; on a miss query the `users` table by email, and if a row exists
cache it with a 3600-second TTL and return it, otherwise return `none`
without writing anything. A down dependency makes the corresponding step
throw. -/
def getUserByEmail (env : Env) (st : AppState) (email : String) :
    AppState × Except SaveError (Option RedisValue) :=
  if !env.redisUp then
    (st, .error .redisUnavailable)
  else
    match redisGet st.redis ("user:completed:" ++ email) with
    | some v => (st, .ok (some v))
    | none =>
      if !env.dbUp then
        (st, .error .dbUnavailable)
      else
        match st.db.rows.find? (fun r => r.email = email) with
        | some r =>
          ({ st with redis := redisSetEx st.redis ("user:completed:" ++ email) 3600
                       (.completedRow r) },
           some (.completedRow r) |> .ok)
        | none => (st, .ok none)

/-- Embedding of the `eachMessage` handler installed by `startConsumer`:
parse the message payload and call `saveUserToDatabase`; the whole body
is wrapped in `try { ... } catch (error) { console.error(...) }` with no
rethrow, so the handler resolves normally whether or not the save
succeeded. The boolean records whether the handler resolved without
throwing (always `true` here, because every error is caught). -/
def eachMessage (env : Env) (st : AppState) (msg : KafkaMessage) (now : Nat) :
    AppState × Bool :=
  match saveUserToDatabase env st msg.value now with
  | (st', .ok _) => (st', true)
  | (st', .error _) => (st', true)

/-- Modelled from the spec: the relay's acknowledge operation (the
message-log client library commits the offset of a message exactly when
the subscriber's handler resolves without throwing; a thrown error leaves
the offset uncommitted so the message is redelivered). The library
implementing this is not part of the repository. -/
def offsetCommitted (handlerResolved : Bool) : Bool :=
  handlerResolved

/-- One consumer step: run the `eachMessage` handler on a message and
apply the relay's commit rule to its outcome. Returns the new state and
whether the message's offset was committed (acknowledged). -/
def consumerStep (env : Env) (st : AppState) (msg : KafkaMessage) (now : Nat) :
    AppState × Bool :=
  let res := eachMessage env st msg now
  (res.1, offsetCommitted res.2)

/-- The consumer subscription loop over a list of delivered messages:
processes each in turn, counting the messages handled. The loop itself
never aborts — a handler error is caught inside `eachMessage`. -/
def runConsumer (env : Env) (st : AppState) (msgs : List KafkaMessage) (now : Nat) :
    AppState × Nat :=
  msgs.foldl (fun acc msg => ((consumerStep env acc.1 msg now).1, acc.2 + 1)) (st, 0)

/-- Embedding of the Kafka branch of the aggregate health handler:
`const producer = getProducer(); if (producer) { healthy }` with the
`catch` setting `unhealthy`. `getProducer` throws exactly when the
producer handle was never initialized, and the check never contacts the
broker, so the result depends only on `producerInitialized`; the
`brokerReachable` argument records the broker's actual state and is
(faithfully to the source) ignored. -/
def kafkaHealthCheck (producerInitialized : Bool) (brokerReachable : Bool) : String :=
  if producerInitialized then "healthy" else "unhealthy"

/-- Per-dependency detail in the aggregate health payload. -/
structure ServicesHealth where
  redis : String
  postgres : String
  kafka : String
deriving Repr, DecidableEq

/-- Embedding of the aggregate health handler `GET /api/health`: each of
the three dependency checks is wrapped in its own try/catch and sets its
status to `healthy` or `unhealthy`; the composite HTTP status is 200
when every service status is `healthy` and 503 otherwise. `redisOk`
means the Redis client is initialized and answers `ping`; `pgOk` means
the pool is initialized and answers `SELECT 1`. -/
def healthCheck (redisOk pgOk : Bool) (producerInitialized brokerReachable : Bool) :
    ServicesHealth × Nat :=
  let services : ServicesHealth :=
    { redis := if redisOk then "healthy" else "unhealthy",
      postgres := if pgOk then "healthy" else "unhealthy",
      kafka := kafkaHealthCheck producerInitialized brokerReachable }
  let allHealthy : Bool :=
    (services.redis == "healthy") && (services.postgres == "healthy") &&
      (services.kafka == "healthy")
  (services, if allHealthy then 200 else 503)

/-- HTTP response as produced by the route handlers: status code, the
`success` flag, and the `error` message when present. -/
structure HttpResponse where
  status : Nat
  success : Bool
  error : Option String
deriving Repr, DecidableEq

/-- Message carried by each submission-path error (`error.message` in the
route's catch block). A validation failure names the offending field; a
dependency failure carries the client library's own error text (modelled
from the spec as a representative library message — the exact text is
library-defined, but it is specific to the failing dependency, not a
generic server error). -/
def submitErrorMessage : SubmitError → String
  | .validation e => "Validation error: " ++ e.message
  | .redisUnavailable => "The client is closed"
  | .kafkaUnavailable => "Connection error: broker unreachable"

/-- Embedding of `router.post('/')` in `userRoutes.js`: a missing body
yields 400; otherwise `submitUserData` is awaited, a success yields 201,
and the single catch block maps EVERY thrown error — validation, Redis
and Kafka failures alike — to status 400 with `error.message` as the
response's error text. -/
def postUsers (env : Env) (st : AppState) (body : Option UserInput) (now : Nat) :
    AppState × HttpResponse :=
  match body with
  | none => (st, ⟨400, false, some ("Request body is required")⟩)
  | some u =>
    match submitUserData env st u now with
    | (st', .ok _) => (st', ⟨201, true, none⟩)
    | (st', .error e) => (st', ⟨400, false, some (submitErrorMessage e)⟩)

/-- Embedding of `router.get('/:email')` in `userRoutes.js`: a thrown
error yields 500 with a generic message; a `null` service result yields
404 `User not found` on the normal (non-catch) path; a found user yields
200. -/
def getUserRoute (env : Env) (st : AppState) (email : String) :
    AppState × HttpResponse :=
  match getUserByEmail env st email with
  | (st', .error _) => (st', ⟨500, false, some ("Failed to fetch user")⟩)
  | (st', .ok none) => (st', ⟨404, false, some ("User not found")⟩)
  | (st', .ok (some _)) => (st', ⟨200, true, none⟩)

/-- Characterization used by the validator theorems: all six fields are
present and each satisfies its schema rule. -/
def inputValid (u : UserInput) : Bool :=
  match u with
  | ⟨some fn, some ln, some em, some g, some sx, some oc⟩ =>
    nameOk fn && nameOk ln && emailOk em && genderValues.contains g &&
      sexValues.contains sx && occupationOk oc
  | _ => false

/-- Whether the named field is missing from the input or violates its
schema rule; used to state that a validation error names an offending
field. -/
def fieldOffending (f : String) (u : UserInput) : Bool :=
  if f = "firstName" then
    (match u.firstName with | none => true | some s => !nameOk s)
  else if f = "lastName" then
    (match u.lastName with | none => true | some s => !nameOk s)
  else if f = "email" then
    (match u.email with | none => true | some s => !emailOk s)
  else if f = "gender" then
    (match u.gender with | none => true | some s => !genderValues.contains s)
  else if f = "sex" then
    (match u.sex with | none => true | some s => !sexValues.contains s)
  else if f = "occupation" then
    (match u.occupation with | none => true | some s => !occupationOk s)
  else false

/-- Row with its `updated_at` timestamp erased; two tables equal up to
this map agree on everything except `updated_at`. -/
def rowModuloUpdatedAt (r : Row) : Row :=
  { r with updated_at := 0 }

instance : IsTotal Row (fun a b => b.created_at ≤ a.created_at) :=
  ⟨fun a b => le_total b.created_at a.created_at⟩

instance : IsTrans Row (fun a b => b.created_at ≤ a.created_at) :=
  ⟨fun _ _ _ h1 h2 => le_trans h2 h1⟩

/-- Sample persisted rows used to instantiate the theorems. -/
def sampleRow1 : Row :=
  ⟨1, "Ann", "Lee", "ann@x.com", "female", "female", "Engineer", 1, 1⟩

/-- Second sample row, created later than `sampleRow1`. -/
def sampleRow2 : Row :=
  ⟨2, "Bob", "Kim", "bob@x.com", "male", "male", "Doctor", 2, 2⟩

/-- Third sample row, the most recently created. -/
def sampleRow3 : Row :=
  ⟨3, "Cat", "Roe", "cat@x.com", "female", "female", "Artist", 3, 3⟩

/-- Sample table holding the three sample rows. -/
def sampleDB3 : DB :=
  ⟨[sampleRow1, sampleRow2, sampleRow3], 4⟩

/-- Sample validated record matching `sampleRow1`. -/
def sampleUser : UserData :=
  ⟨"Ann", "Lee", "ann@x.com", "female", "female", "Engineer"⟩

/-- Sample raw submission that validates to `sampleUser`. -/
def sampleInput : UserInput :=
  ⟨some ("Ann"), some ("Lee"), some ("ann@x.com"), some ("female"),
    some ("female"), some ("Engineer")⟩

/-- Empty external-store state: no Redis entries, no rows, serial at 1,
no relay messages. -/
def emptyState : AppState :=
  ⟨[], ⟨[], 1⟩, []⟩

/-!
Theorems settling the claims.
-/

/-- C8: for every input in which all six fields are present and satisfy
the schema rules, the validator returns a normalized record with every
field present (and equal to the submitted value); for every input with at
least one missing or invalid field, it fails with an error naming an
offending field. The embedding is a pure function, so it has no side
effects. -/
theorem c8_validator_correct (u : UserInput) :
    (inputValid u = true →
      ∃ d : UserData, validateUserData u = .ok d ∧
        u.firstName = some d.firstName ∧ u.lastName = some d.lastName ∧
        u.email = some d.email ∧ u.gender = some d.gender ∧
        u.sex = some d.sex ∧ u.occupation = some d.occupation) ∧
    (inputValid u = false →
      ∃ e : ValidationError, validateUserData u = .error e ∧
        fieldOffending e.field u = true) := by
  obtain ⟨fn, ln, em, g, sx, oc⟩ := u
  constructor
  · intro h
    cases fn with
    | none => simp [inputValid] at h
    | some fn =>
    cases ln with
    | none => simp [inputValid] at h
    | some ln =>
    cases em with
    | none => simp [inputValid] at h
    | some em =>
    cases g with
    | none => simp [inputValid] at h
    | some g =>
    cases sx with
    | none => simp [inputValid] at h
    | some sx =>
    cases oc with
    | none => simp [inputValid] at h
    | some oc =>
    simp only [inputValid, Bool.and_eq_true] at h
    obtain ⟨⟨⟨⟨⟨h1, h2⟩, h3⟩, h4⟩, h5⟩, h6⟩ := h
    have h4' : g ∈ genderValues := by simpa using h4
    have h5' : sx ∈ sexValues := by simpa using h5
    refine ⟨⟨fn, ln, em, g, sx, oc⟩, ?_, rfl, rfl, rfl, rfl, rfl, rfl⟩
    simp [validateUserData, h1, h2, h3, h4', h5', h6]
  · intro h
    cases fn with
    | none =>
      exact ⟨⟨"firstName", "firstName is required"⟩, by simp [validateUserData],
        by simp [fieldOffending]⟩
    | some fn =>
    cases hfn : nameOk fn with
    | false =>
      exact ⟨⟨"firstName", "firstName length must be between 2 and 100"⟩,
        by simp [validateUserData, hfn], by simp [fieldOffending, hfn]⟩
    | true =>
    cases ln with
    | none =>
      exact ⟨⟨"lastName", "lastName is required"⟩,
        by simp [validateUserData, hfn], by simp [fieldOffending]⟩
    | some ln =>
    cases hln : nameOk ln with
    | false =>
      exact ⟨⟨"lastName", "lastName length must be between 2 and 100"⟩,
        by simp [validateUserData, hfn, hln], by simp [fieldOffending, hln]⟩
    | true =>
    cases em with
    | none =>
      exact ⟨⟨"email", "email is required"⟩,
        by simp [validateUserData, hfn, hln], by simp [fieldOffending]⟩
    | some em =>
    cases hem : emailOk em with
    | false =>
      exact ⟨⟨"email", "email must be a valid email"⟩,
        by simp [validateUserData, hfn, hln, hem], by simp [fieldOffending, hem]⟩
    | true =>
    cases g with
    | none =>
      exact ⟨⟨"gender", "gender is required"⟩,
        by simp [validateUserData, hfn, hln, hem], by simp [fieldOffending]⟩
    | some g =>
    cases hg : genderValues.contains g with
    | false =>
      have hg' : g ∉ genderValues := by simpa using hg
      exact ⟨⟨"gender", "gender must be one of the allowed values"⟩,
        by simp [validateUserData, hfn, hln, hem, hg'], by simp [fieldOffending, hg']⟩
    | true =>
    have hg' : g ∈ genderValues := by simpa using hg
    cases sx with
    | none =>
      exact ⟨⟨"sex", "sex is required"⟩,
        by simp [validateUserData, hfn, hln, hem, hg'], by simp [fieldOffending]⟩
    | some sx =>
    cases hsx : sexValues.contains sx with
    | false =>
      have hsx' : sx ∉ sexValues := by simpa using hsx
      exact ⟨⟨"sex", "sex must be one of the allowed values"⟩,
        by simp [validateUserData, hfn, hln, hem, hg', hsx'],
        by simp [fieldOffending, hsx']⟩
    | true =>
    have hsx' : sx ∈ sexValues := by simpa using hsx
    cases oc with
    | none =>
      exact ⟨⟨"occupation", "occupation is required"⟩,
        by simp [validateUserData, hfn, hln, hem, hg', hsx'], by simp [fieldOffending]⟩
    | some oc =>
    cases hoc : occupationOk oc with
    | false =>
      exact ⟨⟨"occupation", "occupation length must be between 2 and 255"⟩,
        by simp [validateUserData, hfn, hln, hem, hg', hsx', hoc],
        by simp [fieldOffending, hoc]⟩
    | true =>
    simp [inputValid, hfn, hln, hem, hg', hsx', hoc] at h

/-- Witness for C8: the valid branch at Ann's record, and the invalid
branch at the same record with a one-character first name. -/
theorem c8_validator_correct_witness :
    (∃ d : UserData,
      validateUserData ⟨some ("Ann"), some ("Lee"), some ("ann@x.com"),
          some ("female"), some ("female"), some ("Engineer")⟩ = .ok d ∧
        (some ("Ann") : Option String) = some d.firstName ∧
        (some ("Lee") : Option String) = some d.lastName ∧
        (some ("ann@x.com") : Option String) = some d.email ∧
        (some ("female") : Option String) = some d.gender ∧
        (some ("female") : Option String) = some d.sex ∧
        (some ("Engineer") : Option String) = some d.occupation) ∧
    (∃ e : ValidationError,
      validateUserData ⟨some ("A"), some ("Lee"), some ("ann@x.com"),
          some ("female"), some ("female"), some ("Engineer")⟩ = .error e ∧
        fieldOffending e.field ⟨some ("A"), some ("Lee"), some ("ann@x.com"),
          some ("female"), some ("female"), some ("Engineer")⟩ = true) :=
  ⟨(c8_validator_correct _).1 (by decide), (c8_validator_correct _).2 (by decide)⟩

/-- C9: the list read returns at most `limit` rows (after skipping
`offset` rows), all drawn from the persisted rows, ordered by creation
time with the most recent first; and with the three sample rows
persisted, limit 2 and offset 0 return exactly the two newest rows,
newest-first. -/
theorem c9_list_pagination (db : DB) (limit offset : Nat) :
    (getAllUsers db limit offset).length ≤ limit ∧
    List.Sorted (fun a b => b.created_at ≤ a.created_at) (getAllUsers db limit offset) ∧
    (∀ r, r ∈ getAllUsers db limit offset → r ∈ db.rows) ∧
    getAllUsers sampleDB3 2 0 = [sampleRow3, sampleRow2] := by
  refine ⟨List.length_take_le _ _, ?_, ?_, by decide⟩
  · have hs := List.sorted_insertionSort
      (fun a b : Row => b.created_at ≤ a.created_at) db.rows
    exact List.Pairwise.sublist
      ((List.take_sublist _ _).trans (List.drop_sublist _ _)) hs
  · intro r hr
    have hmem : r ∈ db.rows.insertionSort (fun a b => b.created_at ≤ a.created_at) :=
      List.Sublist.mem hr ((List.take_sublist _ _).trans (List.drop_sublist _ _))
    exact (List.perm_insertionSort _ db.rows).mem_iff.mp hmem

/-- Witness for C9: the third sample row is on the first page and among
the persisted rows. -/
theorem c9_list_pagination_witness : sampleRow3 ∈ sampleDB3.rows :=
  (c9_list_pagination sampleDB3 2 0).2.2.1 sampleRow3 (by decide)

/-- Helper: `find?` by email over an email-preserving pointwise update
finds the updated row exactly where the original was found. -/
theorem find?_update (l : List Row) (e : String) (r' : Row) (he : r'.email = e) :
    (l.map (fun q => if q.email = e then r' else q)).find? (fun q => q.email = e) =
      (l.find? (fun q => q.email = e)).map (fun _ => r') := by
  induction l with
  | nil => rfl
  | cons x xs ih =>
    by_cases hx : x.email = e
    · rw [List.map_cons, if_pos hx]
      rw [List.find?_cons_of_pos _ (by simp [he]), List.find?_cons_of_pos _ (by simp [hx])]
      rfl
    · rw [List.map_cons, if_neg hx]
      rw [List.find?_cons_of_neg _ (by simp [hx]), List.find?_cons_of_neg _ (by simp [hx])]
      exact ih

/-- Helper: after a pointwise update of all rows holding the given email,
any member of the updated list that holds that email is the updated row. -/
theorem mem_update (l : List Row) (e : String) (r' : Row) (q : Row)
    (hq : q ∈ l.map (fun p => if p.email = e then r' else p)) (hqe : q.email = e) :
    q = r' := by
  obtain ⟨x, hx, hfx⟩ := List.mem_map.mp hq
  by_cases hxe : x.email = e
  · rw [if_pos hxe] at hfx
    exact hfx.symm
  · rw [if_neg hxe] at hfx
    cases hfx
    exact absurd hqe hxe

/-- Helper: the row returned by `dbUpsert` carries the submitted record's
attributes and email with `updated_at` set to the call time; it is found
by an email lookup in the resulting table, and it is the only row of the
resulting table holding that email. -/
theorem dbUpsert_result (db : DB) (u : UserData) (t : Nat) :
    (dbUpsert db u t).2.email = u.email ∧
    (dbUpsert db u t).2.first_name = u.firstName ∧
    (dbUpsert db u t).2.last_name = u.lastName ∧
    (dbUpsert db u t).2.gender = u.gender ∧
    (dbUpsert db u t).2.sex = u.sex ∧
    (dbUpsert db u t).2.occupation = u.occupation ∧
    (dbUpsert db u t).2.updated_at = t ∧
    (dbUpsert db u t).1.rows.find? (fun r => r.email = u.email) =
      some (dbUpsert db u t).2 ∧
    (∀ q ∈ (dbUpsert db u t).1.rows, q.email = u.email → q = (dbUpsert db u t).2) := by
  cases hf : db.rows.find? (fun r => r.email = u.email) with
  | some r =>
    have hre : r.email = u.email := by simpa using List.find?_some hf
    have hres2 : (dbUpsert db u t).2 =
        { r with first_name := u.firstName, last_name := u.lastName,
                 gender := u.gender, sex := u.sex, occupation := u.occupation,
                 updated_at := t } := by
      simp only [dbUpsert, hf]
    have hres1 : (dbUpsert db u t).1.rows =
        db.rows.map (fun q => if q.email = u.email then (dbUpsert db u t).2 else q) := by
      conv_rhs => rw [hres2]
      simp only [dbUpsert, hf]
    refine ⟨?_, ?_, ?_, ?_, ?_, ?_, ?_, ?_, ?_⟩
    · rw [hres2]; exact hre
    · rw [hres2]
    · rw [hres2]
    · rw [hres2]
    · rw [hres2]
    · rw [hres2]
    · rw [hres2]
    · rw [hres1, find?_update db.rows u.email _ (by rw [hres2]; exact hre), hf]
      rfl
    · intro q hq hqe
      rw [hres1] at hq
      exact mem_update _ _ _ q hq hqe
  | none =>
    have hres2 : (dbUpsert db u t).2 =
        { id := db.nextId, first_name := u.firstName, last_name := u.lastName,
          email := u.email, gender := u.gender, sex := u.sex,
          occupation := u.occupation, created_at := t, updated_at := t } := by
      simp only [dbUpsert, hf]
    have hres1 : (dbUpsert db u t).1.rows = db.rows ++ [(dbUpsert db u t).2] := by
      conv_rhs => rw [hres2]
      simp only [dbUpsert, hf]
    refine ⟨?_, ?_, ?_, ?_, ?_, ?_, ?_, ?_, ?_⟩
    · rw [hres2]
    · rw [hres2]
    · rw [hres2]
    · rw [hres2]
    · rw [hres2]
    · rw [hres2]
    · rw [hres2]
    · rw [hres1, List.find?_append, hf,
        List.find?_cons_of_pos _ (by simp [hres2])]
      rfl
    · intro q hq hqe
      rw [hres1] at hq
      rcases List.mem_append.mp hq with hq1 | hq2
      · exact absurd (by simp [hqe]) (List.find?_eq_none.mp hf q hq1)
      · simpa using hq2

/-- C2: the upsert is idempotent — running it a second time with the same
record returns the first run's row with only `updated_at` advanced to the
second call time, changes no table row except for advancing that row's
`updated_at`, and allocates no new id; moreover a table whose emails are
unique keeps them unique across any upsert, so at most one persisted row
per email exists at any time. -/
theorem c2_upsert_idempotent (db : DB) (u : UserData) (t1 t2 : Nat) :
    ((dbUpsert (dbUpsert db u t1).1 u t2).2 =
        { (dbUpsert db u t1).2 with updated_at := t2 } ∧
      (dbUpsert (dbUpsert db u t1).1 u t2).1.rows =
        (dbUpsert db u t1).1.rows.map
          (fun q => if q.email = u.email then { q with updated_at := t2 } else q) ∧
      (dbUpsert (dbUpsert db u t1).1 u t2).1.nextId = (dbUpsert db u t1).1.nextId) ∧
    ((db.rows.map Row.email).Nodup →
      (((dbUpsert db u t1).1).rows.map Row.email).Nodup) := by
  constructor
  · obtain ⟨he, hfn, hln, hg, hsx, hoc, _, hfind, hall⟩ := dbUpsert_result db u t1
    generalize hA : dbUpsert db u t1 = A at *
    have hb2 : ({ A.2 with
        first_name := u.firstName, last_name := u.lastName, gender := u.gender,
        sex := u.sex, occupation := u.occupation, updated_at := t2 } : Row) =
        { A.2 with updated_at := t2 } := by
      rw [← hfn, ← hln, ← hg, ← hsx, ← hoc]
    have hres2 : (dbUpsert A.1 u t2).2 = { A.2 with updated_at := t2 } := by
      rw [← hb2]
      simp only [dbUpsert, hfind]
    have hres1 : (dbUpsert A.1 u t2).1.rows =
        A.1.rows.map (fun q => if q.email = u.email then (dbUpsert A.1 u t2).2 else q) := by
      conv_rhs => rw [hres2, ← hb2]
      simp only [dbUpsert, hfind]
    refine ⟨hres2, ?_, ?_⟩
    · rw [hres1]
      refine List.map_congr_left ?_
      intro q hq
      by_cases hqe : q.email = u.email
      · rw [if_pos hqe, if_pos hqe, hres2, hall q hq hqe]
      · rw [if_neg hqe, if_neg hqe]
    · simp only [dbUpsert, hfind]
  · intro hnd
    cases hf : db.rows.find? (fun r => r.email = u.email) with
    | some r =>
      have hre : r.email = u.email := by simpa using List.find?_some hf
      simp only [dbUpsert, hf]
      have hpres : (db.rows.map (fun q => if q.email = u.email then
          { r with first_name := u.firstName, last_name := u.lastName,
                   gender := u.gender, sex := u.sex, occupation := u.occupation,
                   updated_at := t1 } else q)).map Row.email = db.rows.map Row.email := by
        rw [List.map_map]
        refine List.map_congr_left ?_
        intro a _
        by_cases hae : a.email = u.email
        · simp only [Function.comp_apply, if_pos hae]
          rw [show ({ r with first_name := u.firstName, last_name := u.lastName,
                             gender := u.gender, sex := u.sex,
                             occupation := u.occupation,
                             updated_at := t1 } : Row).email = r.email from rfl,
            hre, hae]
        · simp only [Function.comp_apply, if_neg hae]
      rw [hpres]
      exact hnd
    | none =>
      simp only [dbUpsert, hf]
      rw [List.map_append]
      refine List.nodup_append.mpr ⟨hnd, by simp, ?_⟩
      intro a ha hb
      have hau : a = u.email := by simpa using hb
      obtain ⟨q, hq, hqe⟩ := List.mem_map.mp ha
      exact (List.find?_eq_none.mp hf q hq) (by simp [hqe, hau])

/-- Witness for C2: upserting Ann's record into the sample table keeps
the email column duplicate-free. -/
theorem c2_upsert_idempotent_witness :
    (((dbUpsert sampleDB3 sampleUser 5).1).rows.map Row.email).Nodup :=
  (c2_upsert_idempotent sampleDB3 sampleUser 5 6).2 (by decide)

/-- C3: for a submission that passes validation, a failing staging write
leaves the state unchanged, publishes nothing, and propagates the error
to the caller; on the successful path the staging entry is written under
`user:pending:<email>` (the `pending:<email>` staging key in the
service's `user:` namespace) with a 3600-second (one hour) TTL and the
relay message is appended; and whenever the relay log grew at all, the
staging entry is present in the resulting state — the staging write
precedes any publish. -/
theorem c3_staging_before_publish (env : Env) (st : AppState) (u : UserInput)
    (d : UserData) (now : Nat) (hv : validateUserData u = .ok d) :
    (env.redisUp = false →
      submitUserData env st u now = (st, .error .redisUnavailable)) ∧
    (env.redisUp = true → env.kafkaUp = true →
      (submitUserData env st u now).1.redis =
        redisSetEx st.redis ("user:pending:" ++ d.email) 3600 (.pendingUser d) ∧
      redisGet (submitUserData env st u now).1.redis ("user:pending:" ++ d.email) =
        some (.pendingUser d) ∧
      (submitUserData env st u now).1.kafkaLog =
        st.kafkaLog ++ [⟨"user-registration", none, d, now⟩]) ∧
    ((submitUserData env st u now).1.kafkaLog ≠ st.kafkaLog →
      redisGet (submitUserData env st u now).1.redis ("user:pending:" ++ d.email) =
        some (.pendingUser d)) := by
  refine ⟨?_, ?_, ?_⟩
  · intro hr
    simp [submitUserData, hv, hr]
  · intro hr hk
    simp [submitUserData, hv, hr, hk, sendMessage]
    simp [redisGet, redisSetEx, List.find?]
  · intro hgrow
    cases hr : env.redisUp with
    | false =>
      exfalso
      apply hgrow
      simp [submitUserData, hv, hr]
    | true =>
      cases hk : env.kafkaUp with
      | false =>
        exfalso
        apply hgrow
        simp [submitUserData, hv, hr, hk]
      | true =>
        simp [submitUserData, hv, hr, hk]
        simp [redisGet, redisSetEx, List.find?]

/-- Witness for C3: submitting Ann's valid record with all dependencies
up stages the record under its pending key. -/
theorem c3_staging_before_publish_witness :
    redisGet (submitUserData ⟨true, true, true⟩ emptyState sampleInput 7).1.redis
        ("user:pending:" ++ sampleUser.email) = some (.pendingUser sampleUser) :=
  ((c3_staging_before_publish ⟨true, true, true⟩ emptyState sampleInput sampleUser 7
    (by rfl)).2.1 rfl rfl).2.1

/-- C4 counterexample: with the staging store down, the POST handler
answers Ann's valid submission with HTTP 400 carrying the dependency
error's own (specific) message — not a 5xx-class response with a generic
message, contrary to the claim. -/
theorem c4_counterexample :
    (postUsers ⟨false, true, true⟩ emptyState (some sampleInput) 7).2 =
      ⟨400, false, some ("The client is closed")⟩ ∧
    ¬ (500 ≤ (postUsers ⟨false, true, true⟩ emptyState (some sampleInput) 7).2.status) := by
  decide

/-- C4 (amended): the POST handler's single catch block maps every
submission failure — validation, staging-store and relay alike — to
status 400 with the thrown error's specific message, and a success to
201; only a read of an absent key behaves as the claim says, returning
"not found" as a non-error result, which the GET route maps to 404. -/
theorem c4_error_mapping (env : Env) (st : AppState) (u : UserInput)
    (email : String) (now : Nat) :
    (∀ e, (submitUserData env st u now).2 = .error e →
      (postUsers env st (some u) now).2 = ⟨400, false, some (submitErrorMessage e)⟩) ∧
    (∀ r, (submitUserData env st u now).2 = .ok r →
      (postUsers env st (some u) now).2 = ⟨201, true, none⟩) ∧
    (env.redisUp = true → env.dbUp = true →
      redisGet st.redis ("user:completed:" ++ email) = none →
      st.db.rows.find? (fun r => r.email = email) = none →
      (getUserByEmail env st email).2 = .ok none ∧
      (getUserRoute env st email).2 = ⟨404, false, some ("User not found")⟩) := by
  refine ⟨?_, ?_, ?_⟩
  · intro e he
    cases hsub : submitUserData env st u now with
    | mk st' r =>
      rw [hsub] at he
      cases r with
      | ok v => exact absurd he (by simp)
      | error e' =>
        simp at he
        simp [postUsers, hsub, he]
  · intro r hr
    cases hsub : submitUserData env st u now with
    | mk st' res =>
      rw [hsub] at hr
      cases res with
      | ok v => simp [postUsers, hsub]
      | error e' => exact absurd hr (by simp)
  · intro hre hdb hcache hrow
    have hsvc : getUserByEmail env st email = (st, .ok none) := by
      simp [getUserByEmail, hre, hdb, hcache, hrow]
    exact ⟨by rw [hsvc], by simp [getUserRoute, hsvc]⟩

/-- Witness for C4 (amended): a validation failure gets a 400 with the
specific validation message, and an absent key reads as 404 not-found. -/
theorem c4_error_mapping_witness :
    (postUsers ⟨true, true, true⟩ emptyState
        (some ⟨some ("A"), some ("Lee"), some ("ann@x.com"), some ("female"),
          some ("female"), some ("Engineer")⟩) 7).2 =
      ⟨400, false,
        some (submitErrorMessage (.validation
          ⟨"firstName", "firstName length must be between 2 and 100"⟩))⟩ ∧
    (getUserRoute ⟨true, true, true⟩ emptyState ("ann@x.com")).2 =
      ⟨404, false, some ("User not found")⟩ :=
  ⟨(c4_error_mapping ⟨true, true, true⟩ emptyState
      ⟨some ("A"), some ("Lee"), some ("ann@x.com"), some ("female"),
        some ("female"), some ("Engineer")⟩ ("ann@x.com") 7).1 _ (by rfl),
   ((c4_error_mapping ⟨true, true, true⟩ emptyState
      ⟨some ("A"), some ("Lee"), some ("ann@x.com"), some ("female"),
        some ("female"), some ("Engineer")⟩ ("ann@x.com") 7).2.2 rfl rfl
      (by decide) (by decide)).2⟩

/-- C5: with both stores reachable, `getUserByEmail` returns the
completion-cache entry on a hit without touching the state; on a miss it
returns the system-of-record row if one exists, writing it into the
completion cache with the 3600-second read-TTL, and returns "not found"
without writing any cache entry when no row exists; consequently on any
cache miss the result coincides with the system-of-record lookup. -/
theorem c5_cache_aside (env : Env) (st : AppState) (email : String)
    (hre : env.redisUp = true) (hdb : env.dbUp = true) :
    (∀ v, redisGet st.redis ("user:completed:" ++ email) = some v →
      getUserByEmail env st email = (st, .ok (some v))) ∧
    (redisGet st.redis ("user:completed:" ++ email) = none →
      (∀ r, st.db.rows.find? (fun q => q.email = email) = some r →
        getUserByEmail env st email =
          ({ st with redis := (redisSetEx st.redis ("user:completed:" ++ email) 3600
              (.completedRow r)) },
            .ok (some (.completedRow r)))) ∧
      (st.db.rows.find? (fun q => q.email = email) = none →
        getUserByEmail env st email = (st, .ok none)) ∧
      (getUserByEmail env st email).2 =
        .ok ((st.db.rows.find? (fun q => q.email = email)).map
          (fun r => .completedRow r))) := by
  refine ⟨?_, ?_⟩
  · intro v hv
    simp [getUserByEmail, hre, hv]
  · intro hmiss
    refine ⟨?_, ?_, ?_⟩
    · intro r hr
      simp [getUserByEmail, hre, hdb, hmiss, hr]
    · intro hnone
      simp [getUserByEmail, hre, hdb, hmiss, hnone]
    · cases hfind : st.db.rows.find? (fun q => q.email = email) with
      | some r => simp [getUserByEmail, hre, hdb, hmiss, hfind]
      | none => simp [getUserByEmail, hre, hdb, hmiss, hfind]

/-- Witness for C5: after the consumer persisted Ann's row, a read with
an empty cache returns exactly the system-of-record lookup. -/
theorem c5_cache_aside_witness :
    (getUserByEmail ⟨true, true, true⟩ ⟨[], sampleDB3, []⟩ ("ann@x.com")).2 =
      .ok ((sampleDB3.rows.find? (fun q => q.email = "ann@x.com")).map
        (fun r => .completedRow r)) :=
  ((c5_cache_aside ⟨true, true, true⟩ ⟨[], sampleDB3, []⟩ ("ann@x.com") rfl rfl).2
    (by decide)).2.2

/-- C6: the aggregate health check reports HTTP 200 exactly when all
three per-dependency statuses are `healthy` (otherwise 503); and when
exactly one dependency check fails, the composite is 503 while the other
two dependencies remain individually `healthy` in the detail payload. -/
theorem c6_health_aggregation (redisOk pgOk producerInitialized brokerReachable : Bool) :
    ((healthCheck redisOk pgOk producerInitialized brokerReachable).2 = 200 ↔
      (healthCheck redisOk pgOk producerInitialized brokerReachable).1.redis = "healthy" ∧
      (healthCheck redisOk pgOk producerInitialized brokerReachable).1.postgres = "healthy" ∧
      (healthCheck redisOk pgOk producerInitialized brokerReachable).1.kafka = "healthy") ∧
    ((healthCheck redisOk pgOk producerInitialized brokerReachable).2 = 200 ∨
      (healthCheck redisOk pgOk producerInitialized brokerReachable).2 = 503) ∧
    ((healthCheck redisOk pgOk producerInitialized brokerReachable).2 = 200 ↔
      redisOk = true ∧ pgOk = true ∧ producerInitialized = true) ∧
    (redisOk = false → pgOk = true → producerInitialized = true →
      (healthCheck redisOk pgOk producerInitialized brokerReachable).2 = 503 ∧
      (healthCheck redisOk pgOk producerInitialized brokerReachable).1.postgres = "healthy" ∧
      (healthCheck redisOk pgOk producerInitialized brokerReachable).1.kafka = "healthy") ∧
    (pgOk = false → redisOk = true → producerInitialized = true →
      (healthCheck redisOk pgOk producerInitialized brokerReachable).2 = 503 ∧
      (healthCheck redisOk pgOk producerInitialized brokerReachable).1.redis = "healthy" ∧
      (healthCheck redisOk pgOk producerInitialized brokerReachable).1.kafka = "healthy") ∧
    (producerInitialized = false → redisOk = true → pgOk = true →
      (healthCheck redisOk pgOk producerInitialized brokerReachable).2 = 503 ∧
      (healthCheck redisOk pgOk producerInitialized brokerReachable).1.redis = "healthy" ∧
      (healthCheck redisOk pgOk producerInitialized brokerReachable).1.postgres = "healthy") := by
  cases redisOk <;> cases pgOk <;> cases producerInitialized <;>
    simp [healthCheck, kafkaHealthCheck]

/-- Witness for C6: with only Redis failing, the composite is 503 while
PostgreSQL and Kafka remain individually healthy. -/
theorem c6_health_aggregation_witness :
    (healthCheck false true true true).2 = 503 ∧
    (healthCheck false true true true).1.postgres = "healthy" ∧
    (healthCheck false true true true).1.kafka = "healthy" :=
  (c6_health_aggregation false true true true).2.2.2.1 rfl rfl rfl

/-- C10: the relay dependency of the aggregate health check is `healthy`
exactly when the producer handle has been initialized, and the check's
result is independent of broker reachability — once initialization
succeeded the relay status stays `healthy` whatever the broker state. -/
theorem c10_relay_health_init_only
    (redisOk pgOk producerInitialized b b' : Bool) :
    (kafkaHealthCheck producerInitialized b = "healthy" ↔ producerInitialized = true) ∧
    kafkaHealthCheck producerInitialized b = kafkaHealthCheck producerInitialized b' ∧
    (healthCheck redisOk pgOk producerInitialized b).1.kafka =
      kafkaHealthCheck producerInitialized b ∧
    kafkaHealthCheck true false = "healthy" := by
  cases producerInitialized <;> simp [healthCheck, kafkaHealthCheck]

/-- C7 counterexample: publishing Ann's record to the relay appends a
message whose partitioning key is absent (`none`), not the record's
email — the producer sends no key at all. -/
theorem c7_counterexample :
    (sendMessage [] ("user-registration") sampleUser 7).map (fun m => m.key) = [none] ∧
    (sendMessage [] ("user-registration") sampleUser 7).map (fun m => m.key) ≠
      [some (sampleUser.email)] := by
  decide

/-- C7 (amended): every message the producer appends carries no
partitioning key: any message of the published log that was not already
there has `key = none` (with the payload and producer timestamp it was
given), so ordering by email-keyed partitioning is not established by
this producer. -/
theorem c7_publish_unkeyed (log : List KafkaMessage) (topic : String)
    (message : UserData) (now : Nat) (m : KafkaMessage)
    (hm : m ∈ sendMessage log topic message now) (hnew : m ∉ log) :
    m.key = none ∧ m.topic = topic ∧ m.value = message ∧ m.timestamp = now := by
  rcases List.mem_append.mp hm with hold | hsingle
  · exact absurd hold hnew
  · have : m = ⟨topic, none, message, now⟩ := by simpa using hsingle
    rw [this]
    exact ⟨rfl, rfl, rfl, rfl⟩

/-- Witness for C7 (amended): the message just published into an empty
log is unkeyed. -/
theorem c7_publish_unkeyed_witness :
    (⟨"user-registration", none, sampleUser, 7⟩ : KafkaMessage).key = none :=
  (c7_publish_unkeyed [] ("user-registration") sampleUser 7
    ⟨"user-registration", none, sampleUser, 7⟩ (by decide) (by decide)).1

/-- C1 counterexample: with the system of record down, processing Ann's
relay message fails non-fatally (the upsert throws `dbUnavailable`), yet
the consumer still commits/acknowledges the message's offset, because
the handler catches the error without rethrowing — so the message is
not redelivered, contrary to the claim. -/
theorem c1_counterexample :
    (saveUserToDatabase ⟨true, false, true⟩ emptyState sampleUser 7).2 =
      .error .dbUnavailable ∧
    (consumerStep ⟨true, false, true⟩ emptyState
      ⟨"user-registration", none, sampleUser, 7⟩ 7).2 = true := by
  constructor
  · rfl
  · rfl

/-- C1 (amended): on an upsert failure the consumer logs and continues
polling — the subscription loop processes every delivered message and
never crashes — but the handler swallows the error, so the offset is
committed for every message, failed or not, and no redelivery occurs. -/
theorem c1_consumer_swallows_failures (env : Env) (st : AppState)
    (msg : KafkaMessage) (msgs : List KafkaMessage) (now : Nat) :
    (consumerStep env st msg now).2 = true ∧
    (runConsumer env st msgs now).2 = msgs.length := by
  constructor
  · cases hs : saveUserToDatabase env st msg.value now with
    | mk st' r =>
      cases r with
      | ok v => simp [consumerStep, eachMessage, offsetCommitted, hs]
      | error e => simp [consumerStep, eachMessage, offsetCommitted, hs]
  · have haux : ∀ (l : List KafkaMessage) (s : AppState) (n : Nat),
        (l.foldl (fun acc m => ((consumerStep env acc.1 m now).1, acc.2 + 1)) (s, n)).2 =
          n + l.length := by
      intro l
      induction l with
      | nil => intro s n; simp
      | cons x xs ih =>
        intro s n
        rw [List.foldl_cons, ih, List.length_cons]
        omega
    rw [runConsumer, haux]
    omega

end UserReg
